import Mathlib

/-!
# AudioRouter routing control plane — shallow embedding

This file embeds the routing control plane of the AudioRouter desktop
application (the main application component, the settings editor, and the
language utility) as pure Lean definitions, and proves the specified
properties about them.

The embedding models:
* the main component state (selected source, target device list, running
  flag, status text) as a record `AppState`;
* the asynchronous command boundary (`get_ui_data`, `save_routing_config`,
  `start_routing`, `stop_routing`) by passing each call's result in as an
  `Except String _` argument and logging issued commands / handed-off
  configurations in the state;
* Vue watcher registration (`onMounted`) as an explicit
  `watchersRegistered` flag: a mutation operation appends a save-call to
  the log exactly when the corresponding watcher is registered and the
  watched value changed;
* `Array.prototype.sort` (guaranteed stable by the JS standard) with the
  comparator `(a, b) => a.name.localeCompare(b.name)` as a stable
  insertion sort `sortLe`.  `String.prototype.localeCompare` is a host
  builtin; it is modelled as locale-style case-insensitive comparison:
  code-point lexicographic comparison of ASCII-case-folded strings.
-/

/-! ## Case-insensitive locale comparison model -/

/-- ASCII case folding of a character code: uppercase letters are mapped to
their lowercase counterparts, every other code is unchanged.  Model of the
case-insensitivity of locale collation. -/
def foldCode (c : Char) : Nat :=
  let n := c.toNat
  if 65 ≤ n ∧ n ≤ 90 then n + 32 else n

/-- Lexicographic less-or-equal on folded character codes: model of
default-locale string collation (case differences do not separate names). -/
def codesLe : List Char → List Char → Bool
  | [], _ => true
  | _ :: _, [] => false
  | a :: as, b :: bs =>
    if foldCode a < foldCode b then true
    else if foldCode b < foldCode a then false
    else codesLe as bs

/-- Model of the comparator `a.localeCompare(b) <= 0`. -/
def nameLe (a b : String) : Bool := codesLe a.data b.data

theorem codesLe_total : ∀ a b, codesLe a b || codesLe b a := by
  intro a
  induction a with
  | nil => intro b; cases b <;> simp [codesLe]
  | cons x xs ih =>
    intro b
    cases b with
    | nil => simp [codesLe]
    | cons y ys =>
      simp only [codesLe]
      by_cases h1 : foldCode x < foldCode y
      · simp [h1]
      · by_cases h2 : foldCode y < foldCode x
        · simp [h1, h2]
        · simp only [if_neg h1, if_neg h2, Bool.or_eq_true]
          exact (Bool.or_eq_true _ _).mp (ih ys)

theorem codesLe_trans : ∀ a b c, codesLe a b → codesLe b c → codesLe a c := by
  intro a
  induction a with
  | nil => intro b c _ _; simp [codesLe]
  | cons x xs ih =>
    intro b c hab hbc
    cases b with
    | nil => simp [codesLe] at hab
    | cons y ys =>
      cases c with
      | nil => simp [codesLe] at hbc
      | cons z zs =>
        simp only [codesLe] at hab hbc ⊢
        by_cases h1 : foldCode x < foldCode y
        · by_cases h2 : foldCode y < foldCode z
          · simp [Nat.lt_trans h1 h2]
          · by_cases h3 : foldCode z < foldCode y
            · simp only [if_neg h2, if_pos h3] at hbc
              exact absurd hbc (by simp)
            · have : foldCode y = foldCode z :=
                Nat.le_antisymm (Nat.le_of_not_lt h3) (Nat.le_of_not_lt h2)
              simp [this ▸ h1]
        · by_cases h2 : foldCode y < foldCode x
          · simp only [if_neg h1, if_pos h2] at hab
            exact absurd hab (by simp)
          · have hxy : foldCode x = foldCode y :=
              Nat.le_antisymm (Nat.le_of_not_lt h2) (Nat.le_of_not_lt h1)
            simp only [if_neg h1, if_neg h2] at hab
            by_cases h3 : foldCode y < foldCode z
            · simp [hxy ▸ h3]
            · by_cases h4 : foldCode z < foldCode y
              · simp only [if_neg h3, if_pos h4] at hbc
                exact absurd hbc (by simp)
              · simp only [if_neg h3, if_neg h4] at hbc
                simp only [if_neg (hxy ▸ h3), if_neg (hxy ▸ h4)]
                exact ih ys zs hab hbc

theorem nameLe_total : ∀ a b, nameLe a b || nameLe b a := by
  intro a b
  exact codesLe_total a.data b.data

theorem nameLe_trans : ∀ a b c, nameLe a b → nameLe b c → nameLe a c := by
  intro a b c
  exact codesLe_trans a.data b.data c.data

/-! ## Stable sort model

`Array.prototype.sort` is required by the ECMAScript standard to be a
stable sort; its observable contract (output sorted by the comparator,
same multiset of elements, ties keep their input order) is modelled by a
stable insertion sort. -/

section SortModel
variable {α : Type} (le : α → α → Bool)

/-- Insert `x` into `l` immediately before the first element `y` with
`le x y`; ties among equal keys therefore keep the original order. -/
def insertLe (x : α) : List α → List α
  | [] => [x]
  | y :: ys => if le x y then x :: y :: ys else y :: insertLe x ys

/-- Stable insertion sort: the model of the standard stable `sort`. -/
def sortLe : List α → List α
  | [] => []
  | x :: xs => insertLe le x (sortLe xs)

theorem mem_insertLe (x a : α) (l : List α) : a ∈ insertLe le x l ↔ a = x ∨ a ∈ l := by
  induction l with
  | nil => simp [insertLe]
  | cons y ys ih =>
    simp only [insertLe]
    by_cases h : le x y
    · simp [if_pos h]
    · simp only [if_neg h]
      simp only [List.mem_cons, ih]
      tauto

theorem insertLe_perm (x : α) (l : List α) : (insertLe le x l).Perm (x :: l) := by
  induction l with
  | nil => simp [insertLe]
  | cons y ys ih =>
    simp only [insertLe]
    by_cases h : le x y
    · simp [h]
    · simp only [if_neg h]
      exact (ih.cons y).trans (List.Perm.swap x y ys)

theorem sortLe_perm (l : List α) : (sortLe le l).Perm l := by
  induction l with
  | nil => simp [sortLe]
  | cons x xs ih =>
    exact (insertLe_perm le x (sortLe le xs)).trans (ih.cons x)

theorem pairwise_insertLe
    (total : ∀ a b, le a b || le b a)
    (trans : ∀ a b c, le a b → le b c → le a c)
    (x : α) (l : List α) (h : l.Pairwise (le · ·)) :
    (insertLe le x l).Pairwise (le · ·) := by
  induction l with
  | nil => simp [insertLe]
  | cons y ys ih =>
    simp only [insertLe]
    by_cases hxy : le x y
    · rw [if_pos hxy]
      refine List.Pairwise.cons ?_ h
      intro b hb
      rcases List.mem_cons.mp hb with rfl | hb
      · exact hxy
      · exact trans x y b hxy (List.rel_of_pairwise_cons h hb)
    · have hyx : le y x := by
        rcases (Bool.or_eq_true _ _).mp (total x y) with h' | h'
        · exact absurd h' hxy
        · exact h'
      rw [if_neg hxy]
      refine List.Pairwise.cons ?_ (ih (List.Pairwise.of_cons h))
      intro b hb
      rcases (mem_insertLe le x b ys).mp hb with rfl | hb
      · exact hyx
      · exact List.rel_of_pairwise_cons h hb

theorem pairwise_sortLe
    (total : ∀ a b, le a b || le b a)
    (trans : ∀ a b c, le a b → le b c → le a c)
    (l : List α) : (sortLe le l).Pairwise (le · ·) := by
  induction l with
  | nil => simp [sortLe]
  | cons x xs ih => exact pairwise_insertLe le total trans x (sortLe le xs) ih

theorem insertLe_eq_takeWhile (x : α) (l : List α) :
    insertLe le x l =
      l.takeWhile (fun y => !le x y) ++ x :: l.dropWhile (fun y => !le x y) := by
  induction l with
  | nil => simp [insertLe]
  | cons y ys ih =>
    simp only [insertLe, List.takeWhile, List.dropWhile]
    by_cases h : le x y
    · simp [h]
    · simp [h, ih]

theorem sublist_dropWhile (q : α → Bool) :
    ∀ (l c : List α), c.Sublist l → (∀ y ∈ c, q y = false) → c.Sublist (l.dropWhile q) := by
  intro l
  induction l with
  | nil =>
    intro c hc _
    simpa using hc
  | cons z zs ih =>
    intro c hc hq
    by_cases hz : q z
    · rw [List.dropWhile_cons_of_pos hz]
      cases hc with
      | cons _ h => exact ih c h hq
      | cons₂ _ h =>
        exact absurd (hq z (List.mem_cons_self z _)) (by simp [hz])
    · rw [List.dropWhile_cons_of_neg hz]
      exact hc

theorem sublist_insertLe (x : α) :
    ∀ (l c : List α), c.Sublist l → c.Sublist (insertLe le x l) := by
  intro l
  induction l with
  | nil =>
    intro c hc
    have : c = [] := List.sublist_nil.mp hc
    simp [this, insertLe]
  | cons y ys ih =>
    intro c hc
    simp only [insertLe]
    by_cases h : le x y
    · rw [if_pos h]
      exact hc.cons x
    · rw [if_neg h]
      cases hc with
      | cons _ h' => exact (ih c h').cons y
      | cons₂ _ h' =>
        rename_i c'
        exact (ih c' h').cons₂ y

/-- Stability of the sort: a sorted (hence in particular a tied) sublist of
the input is still a sublist of the output. -/
theorem sortLe_stable :
    ∀ (l c : List α), c.Pairwise (le · ·) → c.Sublist l → c.Sublist (sortLe le l) := by
  intro l
  induction l with
  | nil =>
    intro c _ hc
    simpa [sortLe] using hc
  | cons x xs ih =>
    intro c hp hc
    simp only [sortLe]
    cases hc with
    | cons _ h => exact sublist_insertLe le x (sortLe le xs) c (ih c hp h)
    | cons₂ _ h =>
      rename_i c'
      have hp' : c'.Pairwise (le · ·) := List.Pairwise.of_cons hp
      have hx : ∀ y ∈ c', le x y := fun y hy => List.rel_of_pairwise_cons hp hy
      have h1 : c'.Sublist (sortLe le xs) := ih c' hp' h
      have h2 : c'.Sublist ((sortLe le xs).dropWhile (fun y => !le x y)) := by
        refine sublist_dropWhile (fun y => !le x y) (sortLe le xs) c' h1 ?_
        intro y hy
        simp [hx y hy]
      rw [insertLe_eq_takeWhile]
      exact List.Sublist.trans (h2.cons₂ x) (List.sublist_append_right _ _)

end SortModel

/-! ## Data model

Translated from `generated/bindings` usage and the main component
(`App.vue`): `ChannelMixMode`, `UiDataTargetDevice`, `Output`, the
persisted routing configuration, and the payload of `get_ui_data`. -/

inductive ChannelMixMode
  | Stereo
  | Left
  | Right
  | Center
  | FrontLeft
  | FrontRight
  | BackLeft
  | BackRight
  | BackSurround
  | Subwoofer
deriving DecidableEq

instance : Inhabited ChannelMixMode := ⟨ChannelMixMode.Stereo⟩

structure UiDataTargetDevice where
  id : String
  name : String
  enabled : Bool
  mix_mode : ChannelMixMode
deriving DecidableEq

instance : Inhabited UiDataTargetDevice := ⟨⟨"", "", false, ChannelMixMode.Stereo⟩⟩

structure Output where
  device_id : String
  channel_mode : ChannelMixMode
  enabled : Bool
deriving DecidableEq

/-- The configuration handed to `save_routing_config`. -/
structure RoutingConfig where
  source_id : String
  outputs : List Output
deriving DecidableEq

/-- Payload of a successful `get_ui_data` command. -/
structure UiData where
  target_devices : List UiDataTargetDevice
  is_running : Bool
  source_device : String
deriving DecidableEq

/-- The distinct status strings the component can display (each constructor
stands for one localized message template of the source). -/
inductive StatusMsg
  | StatusReady
  | FoundDevices (count : Nat)
  | ErrorLoadingDevices
  | SelectDevice
  | Starting
  | Stopping
  | RunningOn (count : Nat)
  | ErrorStarting (msg : String)
  | ErrorStopping (msg : String)
deriving DecidableEq

/-- A command issued to the engine over the command boundary. -/
inductive EngineCommand
  | startRoutingCmd (source_id : String) (targets : List (String × ChannelMixMode))
  | stopRoutingCmd
deriving DecidableEq

/-- The observable state of the main component.  `saveCalls` logs every
configuration handed to the persistence boundary (`save_routing_config`),
`engineCalls` logs every start/stop command issued, and
`watchersRegistered` records whether the two `watch` observers of
`onMounted` have been installed. -/
structure AppState where
  selectedSource : String
  target_devices : List UiDataTargetDevice
  isRunning : Bool
  statusText : StatusMsg
  watchersRegistered : Bool
  saveCalls : List RoutingConfig
  engineCalls : List EngineCommand
  successfulRefreshes : Nat
deriving DecidableEq

/-- `const selectedSource = ref(""); const target_devices = ref([]);
const isRunning = ref(false); const statusText = ref(t("StatusReady"))` -/
def initialAppState : AppState :=
  { selectedSource := ""
    target_devices := []
    isRunning := false
    statusText := StatusMsg.StatusReady
    watchersRegistered := false
    saveCalls := []
    engineCalls := []
    successfulRefreshes := 0 }

/-! ## Derived views (computed properties) -/

/-- The inline comparator `(a, b) => a.name.localeCompare(b.name)`. -/
def byName (a b : UiDataTargetDevice) : Bool := nameLe a.name b.name

/-- `sorted_target_devices`: sorts a copy (`[...].slice().sort(...)`) of the
device list by name; the canonical `target_devices` list is not touched. -/
def sorted_target_devices (st : AppState) : List UiDataTargetDevice :=
  sortLe byName st.target_devices

/-- Computing the display ordering returns the sorted copy and leaves the
state as it was (the source sorts a copy, never the canonical list). -/
def computeDisplayOrdering (st : AppState) : List UiDataTargetDevice × AppState :=
  (sorted_target_devices st, st)

/-- `filtered_target_devices`: the eligible target set, excluding the device
currently selected as source. -/
def filtered_target_devices (st : AppState) : List UiDataTargetDevice :=
  (sorted_target_devices st).filter (fun d => d.id != st.selectedSource)

/-! ## Persistence synchronizer -/

/-- The projection `target_devices.value.map((d) => ({device_id: d.id,
channel_mode: d.mix_mode, enabled: d.enabled}))` of `saveRoutingConfig`. -/
def routingOutputs (devices : List UiDataTargetDevice) : List Output :=
  devices.map (fun d => { device_id := d.id, channel_mode := d.mix_mode, enabled := d.enabled })

/-- `saveRoutingConfig`: hand `{source_id, outputs}` to the persistence
boundary.  A persistence failure is logged and changes nothing else, so the
call is modelled as unconditionally appending to the hand-off log. -/
def saveRoutingConfig (st : AppState) : AppState :=
  { st with saveCalls :=
      st.saveCalls ++ [{ source_id := st.selectedSource, outputs := routingOutputs st.target_devices }] }

/-- The two observers installed by `onMounted`:
`watch(() => selectedSource.value, saveRoutingConfig)` and
`watch(() => target_devices.value, saveRoutingConfig, {deep: true})`.
Each fires (once per mutation) when it is registered and its watched value
changed from `st0` (the state before the mutation) to `st1` (after). -/
def notifyRoutingWatchers (st0 st1 : AppState) : AppState :=
  let st2 :=
    if st1.watchersRegistered = true ∧ st1.selectedSource ≠ st0.selectedSource
    then saveRoutingConfig st1 else st1
  if st2.watchersRegistered = true ∧ st2.target_devices ≠ st0.target_devices
  then saveRoutingConfig st2 else st2

/-! ## State mutations (user actions and refresh) -/

/-- Selecting a source device (the `v-model="selectedSource"` binding). -/
def setSelectedSource (id : String) (st : AppState) : AppState :=
  notifyRoutingWatchers st { st with selectedSource := id }

/-- Toggling a target device's enabled flag (the `v-model:enabled` binding
of `DeviceCard`, which mutates the device inside `target_devices`). -/
def setDeviceEnabled (id : String) (v : Bool) (st : AppState) : AppState :=
  notifyRoutingWatchers st
    { st with target_devices :=
        st.target_devices.map (fun d => if d.id = id then { d with enabled := v } else d) }

/-- Changing a target device's mix mode (the `v-model:mix-mode` binding of
`DeviceCard`). -/
def setDeviceMixMode (id : String) (m : ChannelMixMode) (st : AppState) : AppState :=
  notifyRoutingWatchers st
    { st with target_devices :=
        st.target_devices.map (fun d => if d.id = id then { d with mix_mode := m } else d) }

/-- The body of `refreshUI` after a successful `get_ui_data` call:
overwrite devices and running flag, apply the selection-defaulting rules,
then display the device count. -/
def refreshApply (ui : UiData) (st : AppState) : AppState :=
  let st1 :=
    { st with target_devices := ui.target_devices
              isRunning := ui.is_running
              successfulRefreshes := st.successfulRefreshes + 1 }
  let st2 :=
    if ui.source_device ≠ "" ∧ ui.target_devices.any (fun d => d.id == ui.source_device)
    then { st1 with selectedSource := ui.source_device }
    else if 0 < st1.target_devices.length ∧ st1.selectedSource = ""
    then { st1 with selectedSource := (sorted_target_devices st1).headI.id }
    else st1
  { st2 with statusText := StatusMsg.FoundDevices st2.target_devices.length }

/-- `refreshUI`: on failure of `get_ui_data`, only the localized error
status is shown and all prior state is kept; on success the new snapshot is
applied (and, if the observers are already registered, they see the
mutation). -/
def refreshUI (res : Except String UiData) (st : AppState) : AppState :=
  match res with
  | Except.error _ => { st with statusText := StatusMsg.ErrorLoadingDevices }
  | Except.ok ui => notifyRoutingWatchers st (refreshApply ui st)

/-! ## Routing lifecycle controller -/

/-- The start payload: `(d.id, d.mix_mode)` for every enabled device of the
eligible (source-excluded, locale-sorted) target set. -/
def startTargets (st : AppState) : List (String × ChannelMixMode) :=
  ((filtered_target_devices st).filter (fun d => d.enabled)).map (fun d => (d.id, d.mix_mode))

/-- `startRouting`: with no enabled eligible target the command is rejected
locally with the `SelectDevice` status; otherwise `start_routing` is issued
with `{source_id, targets}`.  The command result (`res`) only affects the
status text — never `isRunning`, which waits for the backend event. -/
def startRouting (res : Except String Unit) (st : AppState) : AppState :=
  let targets := startTargets st
  if targets.length = 0 then
    { st with statusText := StatusMsg.SelectDevice }
  else
    let st1 :=
      { st with statusText := StatusMsg.Starting
                engineCalls := st.engineCalls ++
                  [EngineCommand.startRoutingCmd st.selectedSource targets] }
    match res with
    | Except.ok _ => st1
    | Except.error e => { st1 with statusText := StatusMsg.ErrorStarting e }

/-- `stopRouting`: issue `stop_routing`; the result only affects the status
text, never `isRunning`. -/
def stopRouting (res : Except String Unit) (st : AppState) : AppState :=
  let st1 :=
    { st with statusText := StatusMsg.Stopping
              engineCalls := st.engineCalls ++ [EngineCommand.stopRoutingCmd] }
  match res with
  | Except.ok _ => st1
  | Except.error e => { st1 with statusText := StatusMsg.ErrorStopping e }

/-- Listener for the `routing-started` backend event. -/
def onRoutingStarted (st : AppState) : AppState :=
  { st with isRunning := true
            statusText :=
              StatusMsg.RunningOn ((filtered_target_devices st).filter (fun d => d.enabled)).length }

/-- Listener for the `routing-stopped` backend event. -/
def onRoutingStopped (st : AppState) : AppState :=
  { st with isRunning := false, statusText := StatusMsg.StatusReady }

/-- `onMounted`: run the initial refresh (whose result is `res`), then —
only afterwards — register the two persistence observers.
(`checkForUpdates` touches none of the modelled state.) -/
def onMounted (res : Except String UiData) (st : AppState) : AppState :=
  let st1 := refreshUI res st
  { st1 with watchersRegistered := true }

/-! ## Settings editor (`SettingsModal.vue` and `utils/language.ts`) -/

/-- The `General` settings record of the bindings. -/
structure General where
  start_with_windows : Bool
  minimized : Bool
  auto_route : Bool
  language : String
deriving DecidableEq

/-- Observable state around the settings editor: the committed settings
(behind the persistence boundary), the editable draft shown in the modal,
the active i18n locale, the language the tray-menu labels currently
reflect, a count of `update_general_config` calls, the console error log,
and whether the modal is open. -/
structure SettingsState where
  committed : General
  draft : General
  appLocale : String
  trayLang : String
  persistCalls : Nat
  errorLog : List String
  editorOpen : Bool
deriving DecidableEq

/-- `updateAppLanguage` (`utils/language.ts`): set the i18n locale first,
then ask the backend to relabel the tray menu (`update_tray_menu`), whose
result is `trayRes`.  On tray failure the locale change has already
happened; the error propagates to the caller together with the state. -/
def updateAppLanguage (language : String) (trayRes : Except String Unit)
    (st : SettingsState) : SettingsState × Except String Unit :=
  let st1 := { st with appLocale := language }
  match trayRes with
  | Except.ok _ => ({ st1 with trayLang := language }, Except.ok ())
  | Except.error e => (st1, Except.error e)

/-- `updateGeneralConfig` (`SettingsModal.vue`): persist the draft via
`update_general_config` (result `persistRes`); on success the committed
settings are replaced and `updateAppLanguage(draft.language || "en")`
runs; any failure is only logged (`console.error`), nothing is rolled
back.  The modal closes only when everything succeeded. -/
def updateGeneralConfig (persistRes trayRes : Except String Unit)
    (st : SettingsState) : SettingsState :=
  let st0 := { st with persistCalls := st.persistCalls + 1 }
  match persistRes with
  | Except.error e => { st0 with errorLog := st0.errorLog ++ [e] }
  | Except.ok _ =>
    let st1 := { st0 with committed := st0.draft }
    let lang := if st1.draft.language = "" then "en" else st1.draft.language
    match updateAppLanguage lang trayRes st1 with
    | (st2, Except.ok _) => { st2 with editorOpen := false }
    | (st2, Except.error e) => { st2 with errorLog := st2.errorLog ++ [e] }

/-- Opening the modal loads a fresh draft copy of the committed settings
(`loadGeneralConfig`). -/
def openSettings (st : SettingsState) : SettingsState :=
  { st with editorOpen := true, draft := st.committed }

/-- Canceling the editor (`emit("close")`, close button or backdrop click):
the draft is discarded with no persistence call. -/
def cancelSettings (st : SettingsState) : SettingsState :=
  { st with editorOpen := false }

/-! ## Spec-side selection rule (for the refinement claim C5) -/

/-- The spec's selection defaulting policy, written from its own words
(section 4.1): (1) a reported source that is present wins; (2) otherwise an
already-selected source is kept; (3) otherwise, on a non-empty device set,
the locale-first device is selected; when no rule applies nothing changes. -/
def specSelectedSource (reported prev : String) (devices : List UiDataTargetDevice) : String :=
  if reported ≠ "" ∧ devices.any (fun d => d.id == reported) then reported
  else if prev ≠ "" then prev
  else if 0 < devices.length then (sortLe byName devices).headI.id
  else prev

/-! ## Frame helper lemmas -/

theorem notify_fields (st0 st1 : AppState) :
    (notifyRoutingWatchers st0 st1).selectedSource = st1.selectedSource
    ∧ (notifyRoutingWatchers st0 st1).target_devices = st1.target_devices
    ∧ (notifyRoutingWatchers st0 st1).isRunning = st1.isRunning
    ∧ (notifyRoutingWatchers st0 st1).statusText = st1.statusText
    ∧ (notifyRoutingWatchers st0 st1).watchersRegistered = st1.watchersRegistered
    ∧ (notifyRoutingWatchers st0 st1).engineCalls = st1.engineCalls
    ∧ (notifyRoutingWatchers st0 st1).successfulRefreshes = st1.successfulRefreshes := by
  simp only [notifyRoutingWatchers, saveRoutingConfig]
  split <;> split <;> simp

theorem notify_unregistered (st0 st1 : AppState) (h : st1.watchersRegistered = false) :
    notifyRoutingWatchers st0 st1 = st1 := by
  simp [notifyRoutingWatchers, h]

theorem refreshApply_watchers (ui : UiData) (st : AppState) :
    (refreshApply ui st).watchersRegistered = st.watchersRegistered := by
  simp only [refreshApply]
  split
  · rfl
  · split <;> rfl

theorem refreshApply_saveCalls (ui : UiData) (st : AppState) :
    (refreshApply ui st).saveCalls = st.saveCalls := by
  simp only [refreshApply]
  split
  · rfl
  · split <;> rfl

/-! ## Claim theorems -/

/-- C2: the running flag changes only in response to the asynchronous
routing-started / routing-stopped events.  Completion of a start or stop
command — successful or failed — never changes `isRunning`; only the event
listeners do.  A `routing-stopped` event arriving while the state is
already Idle leaves the state Idle, shows the plain ready status (no
error), and performs no other transition. -/
theorem running_flag_only_from_events (st : AppState) (res : Except String Unit) :
    (startRouting res st).isRunning = st.isRunning
    ∧ (stopRouting res st).isRunning = st.isRunning
    ∧ (onRoutingStarted st).isRunning = true
    ∧ (onRoutingStopped st).isRunning = false
    ∧ (st.isRunning = false →
        (onRoutingStopped st).isRunning = false
        ∧ (onRoutingStopped st).statusText = StatusMsg.StatusReady
        ∧ (onRoutingStopped st).selectedSource = st.selectedSource
        ∧ (onRoutingStopped st).target_devices = st.target_devices
        ∧ (onRoutingStopped st).saveCalls = st.saveCalls
        ∧ (onRoutingStopped st).engineCalls = st.engineCalls) := by
  refine ⟨?_, ?_, rfl, rfl, ?_⟩
  · simp only [startRouting]
    split
    · rfl
    · cases res <;> rfl
  · cases res <;> rfl
  · intro _
    exact ⟨rfl, rfl, rfl, rfl, rfl, rfl⟩

/-- Witness for C2 at the initial (Idle) state. -/
theorem running_flag_only_from_events_witness :
    (startRouting (Except.ok ()) initialAppState).isRunning = false
    ∧ (stopRouting (Except.ok ()) initialAppState).isRunning = false
    ∧ (onRoutingStopped initialAppState).statusText = StatusMsg.StatusReady := by
  have h := running_flag_only_from_events initialAppState (Except.ok ())
  exact ⟨h.1.trans rfl, h.2.1.trans rfl, (h.2.2.2.2 rfl).2.1⟩

/-- C3: when the eligible, enabled target set is empty, invoking start
performs no engine call, leaves the running state Idle, and only sets the
`SelectDevice` status message (the NoTargetsSelected surface) — no other
state transition. -/
theorem start_rejected_without_targets (st : AppState) (res : Except String Unit)
    (hempty : startTargets st = []) (hidle : st.isRunning = false) :
    startRouting res st = { st with statusText := StatusMsg.SelectDevice }
    ∧ (startRouting res st).engineCalls = st.engineCalls
    ∧ (startRouting res st).isRunning = false := by
  have h1 : startRouting res st = { st with statusText := StatusMsg.SelectDevice } := by
    simp [startRouting, hempty]
  refine ⟨h1, ?_, ?_⟩
  · rw [h1]
  · rw [h1]
    exact hidle

/-- The spec scenario for C3: one device that is itself the source. -/
def deviceMicA : UiDataTargetDevice :=
  { id := "A", name := "Mic", enabled := true, mix_mode := ChannelMixMode.Stereo }

def onlyMicState : AppState :=
  { initialAppState with
      selectedSource := "A"
      target_devices := [deviceMicA]
      watchersRegistered := true
      successfulRefreshes := 1 }

/-- Witness for C3: with devices `[{id: "A", name: "Mic"}]` and source
`"A"`, the eligible enabled set is empty and start is rejected locally. -/
theorem start_rejected_without_targets_witness :
    startTargets onlyMicState = []
    ∧ onlyMicState.isRunning = false
    ∧ startRouting (Except.ok ()) onlyMicState
        = { onlyMicState with statusText := StatusMsg.SelectDevice } :=
  ⟨by decide, by decide,
   (start_rejected_without_targets onlyMicState (Except.ok ()) (by decide) (by decide)).1⟩

/-- C4: with a non-empty eligible enabled target set, start issues exactly
one `start_routing` command whose payload is `{source_id, targets}` with
`targets` the `(device_id, mix_mode)` projection of the enabled devices of
the eligible (source-excluded, locale-sorted) set; every payload entry
comes from an enabled device of the registry and never carries the id
selected as source. -/
theorem start_payload_eligible_enabled (st : AppState) (res : Except String Unit)
    (h : startTargets st ≠ []) :
    (startRouting res st).engineCalls
      = st.engineCalls ++ [EngineCommand.startRoutingCmd st.selectedSource (startTargets st)]
    ∧ startTargets st
      = ((sortLe byName st.target_devices).filter
          (fun d => d.enabled && d.id != st.selectedSource)).map (fun d => (d.id, d.mix_mode))
    ∧ (∀ p ∈ startTargets st,
        p.1 ≠ st.selectedSource
        ∧ ∃ d ∈ st.target_devices, d.id = p.1 ∧ d.mix_mode = p.2 ∧ d.enabled = true) := by
  have hlen : ¬ (startTargets st).length = 0 := by
    simpa [List.length_eq_zero] using h
  refine ⟨?_, ?_, ?_⟩
  · simp only [startRouting, if_neg hlen]
    cases res <;> rfl
  · simp only [startTargets, filtered_target_devices, sorted_target_devices, List.filter_filter]
  · intro p hp
    simp only [startTargets, List.mem_map] at hp
    obtain ⟨d, hd, rfl⟩ := hp
    rw [List.mem_filter] at hd
    obtain ⟨hdf, hen⟩ := hd
    rw [filtered_target_devices, List.mem_filter] at hdf
    obtain ⟨hds, hne⟩ := hdf
    have hmem : d ∈ st.target_devices := by
      have hperm := sortLe_perm byName st.target_devices
      rw [sorted_target_devices] at hds
      exact hperm.mem_iff.mp hds
    refine ⟨?_, d, hmem, rfl, rfl, hen⟩
    simpa using hne

/-- The spec scenario for C4: source `"A"`, target `"B"` enabled with
Stereo, target `"C"` disabled. -/
def deviceBStereo : UiDataTargetDevice :=
  { id := "B", name := "B", enabled := true, mix_mode := ChannelMixMode.Stereo }

def deviceCDisabled : UiDataTargetDevice :=
  { id := "C", name := "C", enabled := false, mix_mode := ChannelMixMode.Left }

def scenarioBC : AppState :=
  { initialAppState with
      selectedSource := "A"
      target_devices := [deviceBStereo, deviceCDisabled]
      watchersRegistered := true
      successfulRefreshes := 1 }

/-- Witness for C4: the scenario yields exactly the payload
`{source_id: "A", targets: [("B", Stereo)]}`. -/
theorem start_payload_eligible_enabled_witness :
    startTargets scenarioBC ≠ []
    ∧ (startRouting (Except.ok ()) scenarioBC).engineCalls
        = [EngineCommand.startRoutingCmd "A" [("B", ChannelMixMode.Stereo)]] := by
  have h := start_payload_eligible_enabled scenarioBC (Except.ok ()) (by decide)
  refine ⟨by decide, ?_⟩
  rw [h.1]
  decide

/-- C6: for a non-empty device set, the eligible target set is the
locale-sorted device list with exactly the devices carrying the selected
source id removed: it is an order-preserving sublist of the sorted list, a
device belongs to it exactly when it is a registry device whose id differs
from the selected source, and every sorted device left out carries the
selected source id. -/
theorem eligible_targets_exclude_source (st : AppState) (h : st.target_devices ≠ []) :
    (filtered_target_devices st).Sublist (sorted_target_devices st)
    ∧ (∀ d, d ∈ filtered_target_devices st ↔ d ∈ st.target_devices ∧ d.id ≠ st.selectedSource)
    ∧ (∀ d, d ∈ sorted_target_devices st → d ∉ filtered_target_devices st →
        d.id = st.selectedSource) := by
  have hmemiff : ∀ d, d ∈ filtered_target_devices st ↔
      d ∈ st.target_devices ∧ d.id ≠ st.selectedSource := by
    intro d
    rw [filtered_target_devices, List.mem_filter]
    have hperm := sortLe_perm byName st.target_devices
    rw [sorted_target_devices]
    constructor
    · rintro ⟨hs, hne⟩
      exact ⟨hperm.mem_iff.mp hs, by simpa using hne⟩
    · rintro ⟨hm, hne⟩
      exact ⟨hperm.mem_iff.mpr hm, by simpa using hne⟩
  refine ⟨List.filter_sublist _, hmemiff, ?_⟩
  intro d hs hnf
  by_contra hne
  have hperm := sortLe_perm byName st.target_devices
  rw [sorted_target_devices] at hs
  exact hnf ((hmemiff d).mpr ⟨hperm.mem_iff.mp hs, hne⟩)

/-- Witness for C6 on the single-device state: the only device is the
source, so it is excluded from the eligible set. -/
theorem eligible_targets_exclude_source_witness :
    onlyMicState.target_devices ≠ []
    ∧ (deviceMicA ∈ filtered_target_devices onlyMicState ↔
        deviceMicA ∈ onlyMicState.target_devices ∧ deviceMicA.id ≠ onlyMicState.selectedSource)
    ∧ filtered_target_devices onlyMicState = [] :=
  ⟨by decide, (eligible_targets_exclude_source onlyMicState (by decide)).2.1 deviceMicA, by decide⟩

/-- C10: a successful refresh that returns an empty device list leaves the
previously selected source id untouched while the device list becomes
empty, and a failed refresh leaves both the selected source and the device
list untouched. -/
theorem refresh_empty_or_failure_frame (st : AppState) (ui : UiData) (e : String)
    (hempty : ui.target_devices = []) :
    (refreshUI (Except.ok ui) st).selectedSource = st.selectedSource
    ∧ (refreshUI (Except.ok ui) st).target_devices = []
    ∧ (refreshUI (Except.error e) st).selectedSource = st.selectedSource
    ∧ (refreshUI (Except.error e) st).target_devices = st.target_devices := by
  have hsel : (refreshApply ui st).selectedSource = st.selectedSource := by
    simp [refreshApply, hempty]
  have hdev : (refreshApply ui st).target_devices = [] := by
    simp [refreshApply, hempty]
  exact ⟨((notify_fields st (refreshApply ui st)).1).trans hsel,
         ((notify_fields st (refreshApply ui st)).2.1).trans hdev,
         rfl, rfl⟩

/-- Witness for C10: an empty successful refresh over the single-device
state keeps the selected source `"A"` and empties the device list. -/
theorem refresh_empty_or_failure_frame_witness :
    (refreshUI (Except.ok { target_devices := [], is_running := false, source_device := "" })
        onlyMicState).selectedSource = "A"
    ∧ (refreshUI (Except.error "engine unreachable") onlyMicState).target_devices
        = [deviceMicA] := by
  have h := refresh_empty_or_failure_frame onlyMicState
    { target_devices := [], is_running := false, source_device := "" } "engine unreachable" rfl
  exact ⟨h.1.trans rfl, h.2.2.2.trans rfl⟩

/-- C5: after every successful refresh the resulting selected source is
exactly the one prescribed by the spec's defaulting rules
(`specSelectedSource`): a non-empty reported source present in the new set
wins; otherwise a previously selected source is kept; otherwise, on a
non-empty set, the locale-first device is selected. -/
theorem refresh_selection_defaulting (st : AppState) (ui : UiData) :
    (refreshUI (Except.ok ui) st).selectedSource
      = specSelectedSource ui.source_device st.selectedSource ui.target_devices := by
  have h1 := (notify_fields st (refreshApply ui st)).1
  refine h1.trans ?_
  simp only [refreshApply, specSelectedSource]
  by_cases c1 : ui.source_device ≠ "" ∧ ui.target_devices.any (fun d => d.id == ui.source_device)
  · simp [c1]
  · rw [if_neg c1, if_neg c1]
    by_cases c2 : st.selectedSource = ""
    · by_cases c3 : 0 < ui.target_devices.length
      · rw [if_pos ⟨c3, c2⟩]
        rw [if_neg (by simp [c2]), if_pos c3]
        simp [sorted_target_devices]
      · rw [if_neg (by intro hc; exact c3 hc.1)]
        rw [if_neg (by simp [c2]), if_neg c3]
    · rw [if_neg (by intro hc; exact c2 hc.2)]
      rw [if_pos c2]

theorem byName_total : ∀ a b, byName a b || byName b a :=
  fun a b => nameLe_total a.name b.name

theorem byName_trans : ∀ a b c, byName a b → byName b c → byName a c :=
  fun a b c => nameLe_trans a.name b.name c.name

/-- C8: the display ordering is the device list sorted by name under the
stable, locale-aware, case-insensitive comparison: it is a permutation of
the canonical list, pairwise ordered by the name comparator, stable (any
comparator-ordered pair of the input — in particular a pair of devices
with tied names — keeps its relative order), computed on a copy so the
canonical insertion order is untouched, and devices named "zLine" and
"Aux" sort as [Aux, zLine] regardless of insertion order. -/
theorem display_ordering_sorted_stable (st : AppState) :
    (sorted_target_devices st).Perm st.target_devices
    ∧ (sorted_target_devices st).Pairwise (byName · ·)
    ∧ (∀ a b : UiDataTargetDevice, byName a b = true →
        [a, b].Sublist st.target_devices → [a, b].Sublist (sorted_target_devices st))
    ∧ (computeDisplayOrdering st).2 = st
    ∧ (computeDisplayOrdering st).2.target_devices = st.target_devices
    ∧ (∀ zD aD : UiDataTargetDevice, zD.name = "zLine" → aD.name = "Aux" →
        sortLe byName [zD, aD] = [aD, zD] ∧ sortLe byName [aD, zD] = [aD, zD]) := by
  refine ⟨sortLe_perm byName st.target_devices,
          pairwise_sortLe byName byName_total byName_trans st.target_devices,
          ?_, rfl, rfl, ?_⟩
  · intro a b hab hsub
    have hpair : ([a, b]).Pairwise (byName · ·) := by
      refine List.Pairwise.cons ?_ (List.pairwise_singleton _ _)
      intro y hy
      rcases List.mem_singleton.mp hy with rfl
      exact hab
    exact sortLe_stable byName st.target_devices [a, b] hpair hsub
  · intro zD aD hz ha
    have e1 : byName zD aD = false := by
      rw [byName, hz, ha]
      decide
    have e2 : byName aD zD = true := by
      rw [byName, hz, ha]
      decide
    constructor
    · simp [sortLe, insertLe, e1]
    · simp [sortLe, insertLe, e2]

/-- Devices for the C8 witness scenario. -/
def deviceZLine : UiDataTargetDevice :=
  { id := "z1", name := "zLine", enabled := true, mix_mode := ChannelMixMode.Stereo }

def deviceAux : UiDataTargetDevice :=
  { id := "a1", name := "Aux", enabled := true, mix_mode := ChannelMixMode.Stereo }

def displayState : AppState :=
  { initialAppState with target_devices := [deviceZLine, deviceAux] }

/-- Witness for C8: "zLine" and "Aux" sort as [Aux, zLine] in both
insertion orders, and computing the ordering leaves the state intact. -/
theorem display_ordering_sorted_stable_witness :
    sortLe byName [deviceZLine, deviceAux] = [deviceAux, deviceZLine]
    ∧ sortLe byName [deviceAux, deviceZLine] = [deviceAux, deviceZLine]
    ∧ (computeDisplayOrdering displayState).2 = displayState
    ∧ sorted_target_devices displayState = [deviceAux, deviceZLine] :=
  ⟨((display_ordering_sorted_stable displayState).2.2.2.2.2 deviceZLine deviceAux rfl rfl).1,
   ((display_ordering_sorted_stable displayState).2.2.2.2.2 deviceZLine deviceAux rfl rfl).2,
   (display_ordering_sorted_stable displayState).2.2.2.1,
   by decide⟩

/-- State for the C1 analysis: watchers registered, device "A" enabled and
device "B" disabled, no source selected yet. -/
def deviceAlphaOn : UiDataTargetDevice :=
  { id := "A", name := "Alpha", enabled := true, mix_mode := ChannelMixMode.Stereo }

def deviceBetaOff : UiDataTargetDevice :=
  { id := "B", name := "Beta", enabled := false, mix_mode := ChannelMixMode.Left }

def mutationState : AppState :=
  { initialAppState with
      target_devices := [deviceAlphaOn, deviceBetaOff]
      watchersRegistered := true
      successfulRefreshes := 1 }

/-- Counterexample to C1 as stated: selecting "A" as source hands the
persistence boundary a configuration whose outputs still contain the
selected source device "A" and the disabled device "B" (with its enabled
flag), not only the eligible enabled targets. -/
theorem save_config_outputs_cex :
    (setSelectedSource "A" mutationState).selectedSource = "A"
    ∧ (setSelectedSource "A" mutationState).saveCalls
        = [{ source_id := "A"
             outputs :=
               [{ device_id := "A", channel_mode := ChannelMixMode.Stereo, enabled := true },
                { device_id := "B", channel_mode := ChannelMixMode.Left, enabled := false }] }] := by
  constructor
  · decide
  · decide

/-- C1 (amended): every value-changing mutation of the selected source or
of a target device's enabled / mix-mode field hands exactly one
configuration `{source_id, outputs}` to the persistence boundary, where
`outputs` is the projection of the entire canonical target device list —
each device's id, mix mode and enabled flag, in insertion order —
including disabled devices and the device selected as source. -/
theorem save_config_projection (st : AppState) (id : String) (v : Bool) (m : ChannelMixMode)
    (hw : st.watchersRegistered = true) :
    (st.selectedSource ≠ id →
      (setSelectedSource id st).saveCalls
        = st.saveCalls ++ [{ source_id := id, outputs := routingOutputs st.target_devices }])
    ∧ ((setDeviceEnabled id v st).target_devices ≠ st.target_devices →
      (setDeviceEnabled id v st).saveCalls
        = st.saveCalls ++ [{ source_id := st.selectedSource
                             outputs := routingOutputs (setDeviceEnabled id v st).target_devices }])
    ∧ ((setDeviceMixMode id m st).target_devices ≠ st.target_devices →
      (setDeviceMixMode id m st).saveCalls
        = st.saveCalls ++ [{ source_id := st.selectedSource
                             outputs := routingOutputs (setDeviceMixMode id m st).target_devices }]) := by
  refine ⟨?_, ?_, ?_⟩
  · intro hne
    simp [setSelectedSource, notifyRoutingWatchers, saveRoutingConfig, hw, Ne.symm hne]
  · intro hne
    have hdev : (setDeviceEnabled id v st).target_devices
        = st.target_devices.map (fun d => if d.id = id then { d with enabled := v } else d) :=
      (notify_fields st _).2.1
    rw [hdev] at hne ⊢
    simp [setDeviceEnabled, notifyRoutingWatchers, saveRoutingConfig, hw, hne]
  · intro hne
    have hdev : (setDeviceMixMode id m st).target_devices
        = st.target_devices.map (fun d => if d.id = id then { d with mix_mode := m } else d) :=
      (notify_fields st _).2.1
    rw [hdev] at hne ⊢
    simp [setDeviceMixMode, notifyRoutingWatchers, saveRoutingConfig, hw, hne]

/-- Witness for the amended C1 at the concrete mutation state. -/
theorem save_config_projection_witness :
    mutationState.watchersRegistered = true
    ∧ mutationState.selectedSource ≠ "A"
    ∧ (setSelectedSource "A" mutationState).saveCalls
        = mutationState.saveCalls
            ++ [{ source_id := "A", outputs := routingOutputs mutationState.target_devices }] :=
  ⟨rfl, by decide,
   (save_config_projection mutationState "A" true ChannelMixMode.Stereo rfl).1 (by decide)⟩

/-- Counterexample to C7 as stated: when the very first refresh fails, the
persistence observers are still registered, although no successful refresh
has happened. -/
theorem observers_after_failed_refresh_cex :
    (onMounted (Except.error "engine unreachable") initialAppState).watchersRegistered = true
    ∧ (onMounted (Except.error "engine unreachable") initialAppState).successfulRefreshes = 0
    ∧ (onMounted (Except.error "engine unreachable") initialAppState).statusText
        = StatusMsg.ErrorLoadingDevices := by
  refine ⟨rfl, rfl, rfl⟩

/-- C7 (amended): zero persistence calls occur between process start
(including the initial registry load, whatever its outcome) and the first
subsequent user-triggered mutation; the persistence observers are
unregistered before mount and registered strictly after the first refresh
attempt completes. -/
theorem no_save_during_initial_load (res : Except String UiData) :
    initialAppState.watchersRegistered = false
    ∧ (onMounted res initialAppState).saveCalls = []
    ∧ (onMounted res initialAppState).watchersRegistered = true := by
  refine ⟨rfl, ?_, ?_⟩
  · cases res with
    | error e => rfl
    | ok ui =>
      show (notifyRoutingWatchers initialAppState (refreshApply ui initialAppState)).saveCalls = []
      rw [notify_unregistered _ _ ((refreshApply_watchers ui initialAppState).trans rfl)]
      exact (refreshApply_saveCalls ui initialAppState).trans rfl
  · cases res <;> rfl

/-- C9: committing the settings editor persists the draft as the new
committed settings (one persistence call), then updates the interface
language and then the tray labels; a tray failure is only logged — the
commit and the language change stay in effect, nothing is rolled back.
Canceling the editor performs no persistence call and leaves the committed
settings (and the draft) unchanged. -/
theorem settings_commit_and_cancel (st : SettingsState) (e : String) :
    ((updateGeneralConfig (Except.ok ()) (Except.ok ()) st).committed = st.draft
      ∧ (updateGeneralConfig (Except.ok ()) (Except.ok ()) st).persistCalls = st.persistCalls + 1
      ∧ (updateGeneralConfig (Except.ok ()) (Except.ok ()) st).appLocale
          = (if st.draft.language = "" then "en" else st.draft.language)
      ∧ (updateGeneralConfig (Except.ok ()) (Except.ok ()) st).trayLang
          = (if st.draft.language = "" then "en" else st.draft.language))
    ∧ ((updateGeneralConfig (Except.ok ()) (Except.error e) st).committed = st.draft
      ∧ (updateGeneralConfig (Except.ok ()) (Except.error e) st).appLocale
          = (if st.draft.language = "" then "en" else st.draft.language)
      ∧ (updateGeneralConfig (Except.ok ()) (Except.error e) st).trayLang = st.trayLang
      ∧ (updateGeneralConfig (Except.ok ()) (Except.error e) st).errorLog = st.errorLog ++ [e])
    ∧ ((cancelSettings st).committed = st.committed
      ∧ (cancelSettings st).persistCalls = st.persistCalls
      ∧ (cancelSettings st).draft = st.draft) := by
  refine ⟨⟨?_, ?_, ?_, ?_⟩, ⟨?_, ?_, ?_, ?_⟩, rfl, rfl, rfl⟩ <;>
    simp [updateGeneralConfig, updateAppLanguage]
